import Mathlib

/-!
Verification of the usage-telemetry pipeline of CLIProxyAPI.

This file gives a shallow embedding, in Lean 4, of the parts of the
repository that the verified claims are about:

* the SSE usage filter (`FilterSSEUsageMetadata`, `StripUsageMetadataFromJSON`,
  `isStopChunkWithoutUsage`, `hasUsageMetadata` from
  `internal/runtime/executor/usage_helpers.go`);
* the usage reporter (`usageReporter` with `SetInput`, `SetOutput`,
  `AppendOutput`, `CaptureStreamChunk`, `publishWithOutcome`,
  `ensurePublished` from the same file);
* the provider token-usage parsers (`parseOpenAIUsage`, `parseClaudeUsage`,
  `parseClaudeStreamUsage`, ...);
* the in-memory statistics store (`RequestStatistics.MergeSnapshot`,
  `dedupKey`, `normaliseDetail`, `normaliseTokenStats`, `recordImported`,
  `updateAPIStats` from `internal/usage` in `internal/database/database.go`);
* the database driver selection of `database.Init`
  (`internal/database/database.go`).

Modelling conventions:

* JSON documents are modelled by the inductive type `Json` below.  The Go
  code manipulates raw bytes through the `gjson`/`sjson` libraries; the
  embedding works on the parsed tree.  A raw byte payload that is not valid
  JSON is modelled as `(none : Option Json)`; `gjson.ValidBytes` is the
  `Option.isSome` test.  Numbers are modelled as integers (all fields the
  claims touch are token counts of Go type `int64`).
* gjson path lookup (`a.b.0.c`) is `jget`; `Result.Int()` is `jIntOpt`;
  `Result.String()` is `optStr`; `Result.Exists()` is `Option.isSome`.
  Object member lookup, like gjson, returns the first member with the
  requested key; `sjson` set/delete replace/remove the first occurrence.
* Go byte slices holding text are modelled as `String`; `time.Time` is an
  integer nanosecond count (`0` models the zero `time.Time`, matching
  `Time.IsZero`); `strings.TrimSpace` is `trimSpace`.
* Concurrency (mutexes, `sync.Once`, the correlation `sync.Map` and its
  10-minute expiry timers) is modelled by explicit state threading over a
  sequential call order; the one-shot latch of `sync.Once` is the Boolean
  `onceFired`, and the correlation memory is the set of live trace ids
  (timer-driven eviction is not in any claim).
* External side effects of publishing (OpenTelemetry span attributes, the
  database writer) are outside the model: `publishWithOutcome` returns the
  `Record` handed to `usage.PublishRecord`, or `none` when the latch had
  already fired.
-/

/-- JSON value tree, the model of the byte payloads the Go code feeds to
`gjson`/`sjson`.  Object member order is significant (it is for the byte
strings the Go code rewrites). -/
inductive Json where
  | null : Json
  | bool (b : Bool) : Json
  | num (n : Int) : Json
  | str (s : String) : Json
  | arr (elems : List Json) : Json
  | obj (fields : List (String × Json)) : Json

/-- First-occurrence association-list lookup, the model of JSON object
member access in gjson (generic so the statistics maps reuse it). -/
def alookup {α : Type} : List (String × α) → String → Option α
  | [], _ => none
  | (k', v) :: rest, k => if k' = k then some v else alookup rest k

/-- Replace the first entry with the given key, or append a fresh entry:
the model of `sjson` set on an object member and of Go map assignment. -/
def aset {α : Type} : List (String × α) → String → α → List (String × α)
  | [], k, v => [(k, v)]
  | (k', v') :: rest, k, v =>
      if k' = k then (k, v) :: rest else (k', v') :: aset rest k v

/-- Remove the first entry with the given key: the model of `sjson` delete
on an object member. -/
def adel {α : Type} : List (String × α) → String → List (String × α)
  | [], _ => []
  | (k', v') :: rest, k => if k' = k then rest else (k', v') :: adel rest k

/-- Number of entries carrying the given key. -/
def keyCount {α : Type} : List (String × α) → String → Nat
  | [], _ => 0
  | (k', _) :: rest, k => (if k' = k then 1 else 0) + keyCount rest k

/-- `strings.TrimSpace`: drop leading and trailing whitespace (defined
over the character list so concrete instances evaluate in the kernel). -/
def trimSpace (s : String) : String :=
  ⟨((s.data.dropWhile Char.isWhitespace).reverse.dropWhile Char.isWhitespace).reverse⟩

/-- `strings.ToLower` (defined over the character list so concrete
instances evaluate in the kernel). -/
def lowerString (s : String) : String :=
  ⟨s.data.map Char.toLower⟩

/-- Parse a decimal numeral (defined over the character list so concrete
instances evaluate in the kernel). -/
def strToNat? (s : String) : Option Nat :=
  if s.data ≠ [] ∧ s.data.all Char.isDigit then
    some (s.data.foldl (fun n c => n * 10 + (c.toNat - 48)) 0)
  else none

/-- One gjson path component: object member by name, array element by
numeric index (a non-numeric component on an array yields nothing). -/
def jget1 : Json → String → Option Json
  | .obj fields, k => alookup fields k
  | .arr elems, k =>
      match strToNat? k with
      | some i => elems.get? i
      | none => none
  | _, _ => none

/-- gjson dotted-path lookup, e.g. `jget j ["candidates", "0", "finishReason"]`
models `gjson.GetBytes(j, "candidates.0.finishReason")`. -/
def jget : Json → List String → Option Json
  | j, [] => some j
  | j, k :: rest =>
      match jget1 j k with
      | some child => jget child rest
      | none => none

mutual

/-- Compact JSON rendering (model of the raw bytes `Result.Raw`). -/
def render : Json → String
  | .null => "null"
  | .bool b => if b then "true" else "false"
  | .num n => toString n
  | .str s => "\"" ++ s ++ "\""
  | .arr elems => "[" ++ renderElems elems ++ "]"
  | .obj fields => "\x7b" ++ renderFields fields ++ "\x7d"

def renderElems : List Json → String
  | [] => ""
  | [j] => render j
  | j :: rest => render j ++ "," ++ renderElems rest

def renderFields : List (String × Json) → String
  | [] => ""
  | [(k, v)] => "\"" ++ k ++ "\":" ++ render v
  | (k, v) :: rest => "\"" ++ k ++ "\":" ++ render v ++ "," ++ renderFields rest

end

/-- `gjson.Result.String()`: strings verbatim, `""` for null, Boolean and
numeric literals rendered, raw JSON for composite values. -/
def jStr : Json → String
  | .str s => s
  | .num n => toString n
  | .bool b => if b then "true" else "false"
  | .null => ""
  | j => render j

/-- `Result.String()` of a possibly missing lookup (missing yields `""`). -/
def optStr : Option Json → String
  | none => ""
  | some j => jStr j

/-- `gjson.Result.Int()`: numbers verbatim, numeric strings parsed,
Booleans as 0/1, everything else (including a missing result) 0. -/
def jIntOpt : Option Json → Int
  | some (.num n) => n
  | some (.str s) => (s.toInt?).getD 0
  | some (.bool b) => if b then 1 else 0
  | _ => 0

/-- sjson set along a path of object member names.  A missing or non-object
step is materialised as an object, as sjson does; the claims only exercise
paths whose parents exist and are objects. -/
def jsetPath : Json → List String → Json → Json
  | _, [], v => v
  | j, k :: rest, v =>
      let fields := match j with
        | .obj fields => fields
        | _ => []
      match alookup fields k with
      | some child => .obj (aset fields k (jsetPath child rest v))
      | none => .obj (aset fields k (jsetPath .null rest v))

/-- sjson delete along a path of object member names; a missing path leaves
the value untouched (the Go code only deletes members it has just read). -/
def jdelPath : Json → List String → Json
  | j, [] => j
  | .obj fields, [k] => .obj (adel fields k)
  | .obj fields, k :: rest =>
      match alookup fields k with
      | some child => .obj (aset fields k (jdelPath child rest))
      | none => .obj fields
  | j, _ => j

/-! ### Streaming usage filter (`usage_helpers.go` lines 633-802) -/

/-- `hasUsageMetadata`: a valid JSON chunk carries usage metadata when
`usageMetadata` exists top-level or under the `response` wrapper; invalid
bytes (`none`) never do. -/
def hasUsageMetadata : Option Json → Bool
  | none => false
  | some j =>
      (jget j ["usageMetadata"]).isSome || (jget j ["response", "usageMetadata"]).isSome

/-- The finish-reason lookup shared by `isStopChunkWithoutUsage` and
`StripUsageMetadataFromJSON`: `candidates.0.finishReason`, falling back to
`response.candidates.0.finishReason` when the first path does not exist. -/
def finishReasonNode (j : Json) : Option Json :=
  match jget j ["candidates", "0", "finishReason"] with
  | some r => some r
  | none => jget j ["response", "candidates", "0", "finishReason"]

/-- A chunk is terminal when the finish-reason node exists and its string
form is non-empty after trimming. -/
def terminalReason (j : Json) : Bool :=
  (finishReasonNode j).isSome && trimSpace (optStr (finishReasonNode j)) ≠ ""

/-- `isStopChunkWithoutUsage`: a valid chunk with a non-empty finish reason
and no usage metadata. -/
def isStopChunkWithoutUsage : Option Json → Bool
  | none => false
  | some j => terminalReason j && !hasUsageMetadata (some j)

/-- `StripUsageMetadataFromJSON` on the parse of the raw bytes (`none` for
bytes that fail `gjson.ValidBytes`, which the Go code returns unchanged with
`changed = false`).  Terminal chunks and chunks without usage metadata are
returned unchanged; otherwise `usageMetadata` is renamed to
`cpaUsageMetadata` at top level and then under `response`, mirroring the
two sequential sjson set/delete passes of the source. -/
def StripUsageMetadataFromJSON : Option Json → Option Json × Bool
  | none => (none, false)
  | some j =>
      if terminalReason j then (some j, false)
      else if !hasUsageMetadata (some j) then (some j, false)
      else
        let step1 : Json × Bool :=
          match jget j ["usageMetadata"] with
          | some um =>
              (jdelPath (jsetPath j ["cpaUsageMetadata"] um) ["usageMetadata"], true)
          | none => (j, false)
        let step2 : Json × Bool :=
          match jget step1.1 ["response", "usageMetadata"] with
          | some um =>
              (jdelPath (jsetPath step1.1 ["response", "cpaUsageMetadata"] um)
                 ["response", "usageMetadata"], true)
          | none => (step1.1, false)
        (some step2.1, step1.2 || step2.2)

/-- One line of an SSE payload (the result of splitting the payload bytes
on `"\n"`).  `dataLine pre sep doc` stands for the bytes
`pre ++ "data:" ++ sep ++ raw`, a line whose trimmed form starts with
`data:`; `doc` is the parse of the trimmed bytes after the marker (`none`
when they are not valid JSON).  `other raw` is any line the loop skips
(blank, or not starting with the `data:` marker after trimming). -/
inductive SSELine where
  | other (raw : String) : SSELine
  | dataLine (pre sep : String) (doc : Option Json) : SSELine

/-- Whether a line is a `data:` line (`foundData` in the source). -/
def SSELine.isData : SSELine → Bool
  | .other _ => false
  | .dataLine _ _ _ => true

/-- `traceId` of a data chunk (`gjson.GetBytes(rawJSON, "traceId").String()`).
For invalid bytes the filter never uses the value in a way that can differ
from the empty string (both guarded branches also require a predicate that
is false on invalid bytes), so `none` maps to `""`. -/
def traceIdOf : Option Json → String
  | none => ""
  | some j => optStr (jget j ["traceId"])

/-- Insert a trace id into the correlation memory
(`stopChunkWithoutUsage.Store`); the memory is the set of live keys. -/
def memInsert (traceID : String) (mem : List String) : List String :=
  if traceID ∈ mem then mem else traceID :: mem

/-- The body of the per-line loop of `FilterSSEUsageMetadata` for one line:
returns the updated correlation memory, the (possibly rewritten) line, and
whether the line was modified. -/
def lineStep (mem : List String) : SSELine → List String × SSELine × Bool
  | .other raw => (mem, .other raw, false)
  | .dataLine pre sep doc =>
      let traceID := traceIdOf doc
      if isStopChunkWithoutUsage doc = true ∧ traceID ≠ "" then
        (memInsert traceID mem, .dataLine pre sep doc, false)
      else if traceID ≠ "" ∧ traceID ∈ mem ∧ hasUsageMetadata doc = true then
        (mem.erase traceID, .dataLine pre sep doc, false)
      else
        match StripUsageMetadataFromJSON doc with
        | (cleaned, true) => (mem, .dataLine pre " " cleaned, true)
        | (_, false) => (mem, .dataLine pre sep doc, false)

/-- The per-line loop over the split payload, threading the correlation
memory and accumulating the `modified` flag. -/
def filterLines (mem : List String) : List SSELine → List String × List SSELine × Bool
  | [] => (mem, [], false)
  | l :: ls =>
      let step := lineStep mem l
      let rest := filterLines step.1 ls
      (rest.1, step.2.1 :: rest.2.1, step.2.2 || rest.2.2)

/-- `FilterSSEUsageMetadata`.  `payload` is the line split of the byte
payload (empty bytes give `[]`); `wholeDoc` is the parse of the trimmed
whole payload, consulted only on the raw-JSON fallback path (a payload with
no recognizable `data:` line).  When no line was modified the source
returns the original byte slice, so the output list is the input list. -/
def FilterSSEUsageMetadata (mem : List String) (payload : List SSELine)
    (wholeDoc : Option Json) : List String × List SSELine :=
  if payload.isEmpty then (mem, payload)
  else
    let run := filterLines mem payload
    if run.2.2 then (run.1, run.2.1)
    else if payload.any SSELine.isData then (run.1, payload)
    else
      match StripUsageMetadataFromJSON wholeDoc with
      | (some cleaned, true) => (run.1, [SSELine.other (render cleaned)])
      | _ => (run.1, payload)

/-! ### Canonical usage detail and record (`sdk/cliproxy/usage`, fields as
used by the executor call sites and spec section 3) -/

/-- `usage.Detail`: the canonical token-count breakdown. -/
structure Detail where
  InputTokens : Int := 0
  OutputTokens : Int := 0
  ReasoningTokens : Int := 0
  CachedTokens : Int := 0
  TotalTokens : Int := 0
deriving DecidableEq, Repr

/-- `usage.Record` as constructed by `publishWithOutcome`. -/
structure Record where
  Provider : String
  Model : String
  Source : String
  APIKey : String
  AuthID : String
  AuthIndex : String
  RequestedAt : Int
  Failed : Bool
  Detail : Detail
deriving DecidableEq, Repr

/-! ### Usage reporter (`usage_helpers.go` lines 23-346) -/

/-- `usageReporter`: request-scoped mutable state.  `onceFired` models the
`sync.Once` publish latch (false while `once.Do` has not yet run a body). -/
structure usageReporter where
  provider : String := ""
  model : String := ""
  authID : String := ""
  authIndex : String := ""
  apiKey : String := ""
  source : String := ""
  requestedAt : Int := 0
  inputPayload : String := ""
  outputPayload : String := ""
  respID : String := ""
  finishReasons : List String := []
  onceFired : Bool := false
deriving DecidableEq, Repr

/-- `SetInput`: replaces the captured input payload; no-op on a nil
receiver (`none`) or an empty payload. -/
def SetInput : Option usageReporter → String → Option usageReporter
  | none, _ => none
  | some r, payload =>
      if payload.isEmpty then some r else some { r with inputPayload := payload }

/-- `SetOutput`: replaces the captured output payload; no-op on a nil
receiver or an empty payload. -/
def SetOutput : Option usageReporter → String → Option usageReporter
  | none, _ => none
  | some r, payload =>
      if payload.isEmpty then some r else some { r with outputPayload := payload }

/-- `AppendOutput`: appends a streaming chunk; no-op on a nil receiver or
an empty chunk. -/
def AppendOutput : Option usageReporter → String → Option usageReporter
  | none, _ => none
  | some r, chunk =>
      if chunk.isEmpty then some r
      else some { r with outputPayload := r.outputPayload ++ chunk }

/-- Argument of `CaptureStreamChunk`: `empty` models a zero-length byte
slice; `invalid` a non-empty chunk whose bytes (after the optional `data:`
marker is stripped and the result trimmed) are empty or not valid JSON;
`json j` a chunk whose JSON payload parses to `j`. -/
inductive StreamChunk where
  | empty : StreamChunk
  | invalid (raw : String) : StreamChunk
  | json (j : Json) : StreamChunk

/-- `CaptureStreamChunk`: records the response id and finish reasons seen
in the chunk and appends the first extracted text content, trying the
OpenAI delta path, then the Gemini candidate-parts path, then the Claude
delta/content-block paths. -/
def CaptureStreamChunk : Option usageReporter → StreamChunk → Option usageReporter
  | none, _ => none
  | some r, .empty => some r
  | some r, .invalid _ => some r
  | some r, .json j =>
      let idStr := optStr (jget j ["id"])
      let r1 := if idStr ≠ "" then { r with respID := idStr } else r
      let r2 := match jget j ["choices"] with
        | some (.arr choices) =>
            { r1 with finishReasons := r1.finishReasons ++ choices.filterMap fun choice =>
                let reason := optStr (jget choice ["finish_reason"])
                if reason ≠ "" then some reason else none }
        | _ => r1
      let openAIContent := optStr (jget j ["choices", "0", "delta", "content"])
      if openAIContent ≠ "" then
        some { r2 with outputPayload := r2.outputPayload ++ openAIContent }
      else
        let geminiContent := optStr (jget j ["candidates", "0", "content", "parts", "0", "text"])
        if geminiContent ≠ "" then
          some { r2 with outputPayload := r2.outputPayload ++ geminiContent }
        else
          let deltaText := optStr (jget j ["delta", "text"])
          let claudeContent :=
            if deltaText = "" then optStr (jget j ["content_block", "text"]) else deltaText
          if claudeContent ≠ "" then
            some { r2 with outputPayload := r2.outputPayload ++ claudeContent }
          else some r2

/-- The total derivation performed by `publishWithOutcome` before the
latch: a zero `TotalTokens` becomes Input+Output+Reasoning when that sum is
positive. -/
def deriveTotal (detail : Detail) : Detail :=
  if detail.TotalTokens = 0 then
    let total := detail.InputTokens + detail.OutputTokens + detail.ReasoningTokens
    if total > 0 then { detail with TotalTokens := total } else detail
  else detail

/-- The `usage.Record` handed to `usage.PublishRecord` inside the latch
body. -/
def mkRecord (r : usageReporter) (detail : Detail) (failed : Bool) : Record :=
  { Provider := r.provider
    Model := r.model
    Source := r.source
    APIKey := r.apiKey
    AuthID := r.authID
    AuthIndex := r.authIndex
    RequestedAt := r.requestedAt
    Failed := failed
    Detail := detail }

/-- `publishWithOutcome`: derives the total, then publishes through the
single-fire latch.  Returns the updated reporter and the record handed to
`usage.PublishRecord` (`none` when the receiver is nil or the latch had
already fired; the OTel span attributes set in the same body are an
external side effect outside the model). -/
def publishWithOutcome : Option usageReporter → Detail → Bool → Option usageReporter × Option Record
  | none, _, _ => (none, none)
  | some r, detail, failed =>
      let detail := deriveTotal detail
      if r.onceFired then (some r, none)
      else (some { r with onceFired := true }, some (mkRecord r detail failed))

/-- `publish`: success completion with a parsed detail. -/
def publish (r : Option usageReporter) (detail : Detail) : Option usageReporter × Option Record :=
  publishWithOutcome r detail false

/-- `publishFailure`: failure completion with a zeroed detail. -/
def publishFailure (r : Option usageReporter) : Option usageReporter × Option Record :=
  publishWithOutcome r {} true

/-- `ensurePublished`: idle finalize, an empty successful publish. -/
def ensurePublished (r : Option usageReporter) : Option usageReporter × Option Record :=
  publishWithOutcome r {} false

/-- A completion signal racing for the publish latch (claim C1).  The
sequential order of the list models whichever serialization the race
resolved to. -/
inductive CompletionCall where
  | publishDetail (detail : Detail) : CompletionCall
  | failure : CompletionCall
  | ensure : CompletionCall

/-- Dispatch one completion call to `publishWithOutcome`. -/
def applyCall (r : Option usageReporter) : CompletionCall → Option usageReporter × Option Record
  | .publishDetail detail => publish r detail
  | .failure => publishFailure r
  | .ensure => ensurePublished r

/-- Run a sequence of completion calls, collecting every record handed to
`usage.PublishRecord`. -/
def runCalls : Option usageReporter → List CompletionCall → Option usageReporter × List Record
  | r, [] => (r, [])
  | r, c :: cs =>
      let step := applyCall r c
      let rest := runCalls step.1 cs
      (rest.1, step.2.elim rest.2 (· :: rest.2))

/-! ### Token-usage parsers (`usage_helpers.go` lines 416-631) -/

/-- `parseOpenAIUsage`: OpenAI batch shape, `prompt_tokens`/`input_tokens`
fallback chain, declared `total_tokens` (0 when absent). -/
def parseOpenAIUsage (doc : Json) : Detail :=
  match jget doc ["usage"] with
  | none => {}
  | some usageNode =>
      let inputNode := match jget usageNode ["prompt_tokens"] with
        | some v => some v
        | none => jget usageNode ["input_tokens"]
      let outputNode := match jget usageNode ["completion_tokens"] with
        | some v => some v
        | none => jget usageNode ["output_tokens"]
      let cached := match jget usageNode ["prompt_tokens_details", "cached_tokens"] with
        | some v => some v
        | none => jget usageNode ["input_tokens_details", "cached_tokens"]
      let reasoning := match jget usageNode ["completion_tokens_details", "reasoning_tokens"] with
        | some v => some v
        | none => jget usageNode ["output_tokens_details", "reasoning_tokens"]
      { InputTokens := jIntOpt inputNode
        OutputTokens := jIntOpt outputNode
        TotalTokens := jIntOpt (jget usageNode ["total_tokens"])
        CachedTokens := jIntOpt cached
        ReasoningTokens := jIntOpt reasoning }

/-- `parseClaudeUsage`: Claude batch shape.  The total is always
input+output; the cached count falls back from `cache_read_input_tokens`
to `cache_creation_input_tokens` when the read count is zero. -/
def parseClaudeUsage (doc : Json) : Detail :=
  match jget doc ["usage"] with
  | none => {}
  | some usageNode =>
      let input := jIntOpt (jget usageNode ["input_tokens"])
      let output := jIntOpt (jget usageNode ["output_tokens"])
      let cachedRead := jIntOpt (jget usageNode ["cache_read_input_tokens"])
      let cached :=
        if cachedRead = 0 then jIntOpt (jget usageNode ["cache_creation_input_tokens"])
        else cachedRead
      { InputTokens := input
        OutputTokens := output
        CachedTokens := cached
        ReasoningTokens := 0
        TotalTokens := input + output }

/-- `parseClaudeStreamUsage` on the `jsonPayload` extraction of an SSE
line: `none` models a line with no JSON payload (blank, `[DONE]`, an
`event:` line, or bytes that fail `gjson.ValidBytes`), for which the Go
code reports not-found. -/
def parseClaudeStreamUsage : Option Json → Option Detail
  | none => none
  | some j =>
      match jget j ["usage"] with
      | none => none
      | some usageNode =>
          let input := jIntOpt (jget usageNode ["input_tokens"])
          let output := jIntOpt (jget usageNode ["output_tokens"])
          let cachedRead := jIntOpt (jget usageNode ["cache_read_input_tokens"])
          let cached :=
            if cachedRead = 0 then jIntOpt (jget usageNode ["cache_creation_input_tokens"])
            else cachedRead
          some { InputTokens := input
                 OutputTokens := output
                 CachedTokens := cached
                 ReasoningTokens := 0
                 TotalTokens := input + output }

/-! ### In-memory statistics store (`internal/usage` in
`internal/database/database.go`) -/

/-- `TokenStats`: the token breakdown stored per request detail. -/
structure TokenStats where
  InputTokens : Int := 0
  OutputTokens : Int := 0
  ReasoningTokens : Int := 0
  CachedTokens : Int := 0
  TotalTokens : Int := 0
deriving DecidableEq, Repr

/-- `RequestDetail`: one stored request row.  `Timestamp` is the
nanosecond instant; `0` models the zero `time.Time`. -/
structure RequestDetail where
  Timestamp : Int := 0
  Source : String := ""
  AuthIndex : String := ""
  Tokens : TokenStats := {}
  Failed : Bool := false
deriving DecidableEq, Repr

/-- `normaliseTokenStats`: derive a zero total as Input+Output+Reasoning,
then fold the cached count in when the total is still zero. -/
def normaliseTokenStats (tokens : TokenStats) : TokenStats :=
  let tokens :=
    if tokens.TotalTokens = 0 then
      { tokens with TotalTokens := tokens.InputTokens + tokens.OutputTokens + tokens.ReasoningTokens }
    else tokens
  if tokens.TotalTokens = 0 then
    { tokens with TotalTokens :=
        tokens.InputTokens + tokens.OutputTokens + tokens.ReasoningTokens + tokens.CachedTokens }
  else tokens

/-- `normaliseDetail`: convert a `usage.Detail` to `TokenStats` with the
same total derivation. -/
def normaliseDetail (detail : Detail) : TokenStats :=
  let tokens : TokenStats :=
    { InputTokens := detail.InputTokens
      OutputTokens := detail.OutputTokens
      ReasoningTokens := detail.ReasoningTokens
      CachedTokens := detail.CachedTokens
      TotalTokens := detail.TotalTokens }
  let tokens :=
    if tokens.TotalTokens = 0 then
      { tokens with TotalTokens := detail.InputTokens + detail.OutputTokens + detail.ReasoningTokens }
    else tokens
  if tokens.TotalTokens = 0 then
    { tokens with TotalTokens :=
        detail.InputTokens + detail.OutputTokens + detail.ReasoningTokens + detail.CachedTokens }
  else tokens

/-- `modelStats`: per-model rollup. -/
structure modelStats where
  TotalRequests : Int := 0
  TotalTokens : Int := 0
  Details : List RequestDetail := []
deriving DecidableEq, Repr

/-- `apiStats`: per-identity rollup. -/
structure apiStats where
  TotalRequests : Int := 0
  TotalTokens : Int := 0
  Models : List (String × modelStats) := []
deriving DecidableEq, Repr

/-- The day bucket key of a timestamp (the Go code formats the local time
as `YYYY-MM-DD`; the model keeps the injective day number). -/
def dayKey (t : Int) : Int := t / 86400000000000

/-- The hour bucket of a timestamp (`Time.Hour()`, a value in 0..23). -/
def hourKey (t : Int) : Int := (t / 3600000000000) % 24

/-- Add to a bucket counter (Go map increment: first matching key updated,
a missing key appended). -/
def bump (l : List (Int × Int)) (k : Int) (v : Int) : List (Int × Int) :=
  match l with
  | [] => [(k, v)]
  | (k', v') :: rest => if k' = k then (k, v' + v) :: rest else (k', v') :: bump rest k v

/-- `RequestStatistics`: the process-wide aggregate store (maps as
association lists). -/
structure RequestStatistics where
  totalRequests : Int := 0
  successCount : Int := 0
  failureCount : Int := 0
  totalTokens : Int := 0
  apis : List (String × apiStats) := []
  requestsByDay : List (Int × Int) := []
  requestsByHour : List (Int × Int) := []
  tokensByDay : List (Int × Int) := []
  tokensByHour : List (Int × Int) := []
deriving DecidableEq, Repr

/-- `ModelSnapshot` (details included, as in the exported envelope). -/
structure ModelSnapshot where
  TotalRequests : Int := 0
  TotalTokens : Int := 0
  Details : List RequestDetail := []
deriving DecidableEq, Repr

/-- `APISnapshot`. -/
structure APISnapshot where
  TotalRequests : Int := 0
  TotalTokens : Int := 0
  Models : List (String × ModelSnapshot) := []
deriving DecidableEq, Repr

/-- `StatisticsSnapshot` (the time-bucket maps are not read by
`MergeSnapshot` and are omitted from the model of the snapshot value). -/
structure StatisticsSnapshot where
  TotalRequests : Int := 0
  SuccessCount : Int := 0
  FailureCount : Int := 0
  TotalTokens : Int := 0
  APIs : List (String × APISnapshot) := []
deriving DecidableEq, Repr

/-- `MergeResult`: counts of added and skipped details. -/
structure MergeResult where
  Added : Int := 0
  Skipped : Int := 0
deriving DecidableEq, Repr

/-- `dedupKey` as a structured tuple.  The Go code formats these same
eleven fields into a `|`-separated string (with the timestamp rendered in
nanosecond-precision UTC, injectively); the tuple keeps exactly the fields
that determine the string on distinct-field inputs. -/
structure DedupKey where
  api : String
  model : String
  timestamp : Int
  source : String
  authIndex : String
  failed : Bool
  input : Int
  output : Int
  reasoning : Int
  cached : Int
  total : Int
deriving DecidableEq, Repr

/-- `dedupKey(apiName, modelName, detail)`: the detail's tokens are
re-normalised before keying. -/
def dedupKey (apiName modelName : String) (detail : RequestDetail) : DedupKey :=
  let tokens := normaliseTokenStats detail.Tokens
  { api := apiName
    model := modelName
    timestamp := detail.Timestamp
    source := detail.Source
    authIndex := detail.AuthIndex
    failed := detail.Failed
    input := tokens.InputTokens
    output := tokens.OutputTokens
    reasoning := tokens.ReasoningTokens
    cached := tokens.CachedTokens
    total := tokens.TotalTokens }

/-- `updateAPIStats`: bump the identity rollup and the model rollup and
append the detail row. -/
def updateAPIStats (stats : apiStats) (model : String) (detail : RequestDetail) : apiStats :=
  let stats := { stats with
    TotalRequests := stats.TotalRequests + 1
    TotalTokens := stats.TotalTokens + detail.Tokens.TotalTokens }
  let modelStatsValue := (alookup stats.Models model).getD {}
  let modelStatsValue := { modelStatsValue with
    TotalRequests := modelStatsValue.TotalRequests + 1
    TotalTokens := modelStatsValue.TotalTokens + detail.Tokens.TotalTokens
    Details := modelStatsValue.Details ++ [detail] }
  { stats with Models := aset stats.Models model modelStatsValue }

/-- Update the api entry with the given key (Go mutates the `*apiStats`
obtained from the map, so an absent key is never updated here: the caller
has already inserted it). -/
def aupdate {α : Type} : List (String × α) → String → (α → α) → List (String × α)
  | [], _, _ => []
  | (k', v) :: rest, k, f =>
      if k' = k then (k, f v) :: rest else (k', v) :: aupdate rest k f

/-- `recordImported`: global counters, identity/model rollup, and day/hour
buckets for one imported detail (the detail's tokens are already
normalised and its timestamp already assigned by the merge loop). -/
def recordImported (s : RequestStatistics) (apiName modelName : String)
    (detail : RequestDetail) : RequestStatistics :=
  let totalTokens := if detail.Tokens.TotalTokens < 0 then 0 else detail.Tokens.TotalTokens
  { s with
    totalRequests := s.totalRequests + 1
    successCount := if detail.Failed then s.successCount else s.successCount + 1
    failureCount := if detail.Failed then s.failureCount + 1 else s.failureCount
    totalTokens := s.totalTokens + totalTokens
    apis := aupdate s.apis apiName (fun stats => updateAPIStats stats modelName detail)
    requestsByDay := bump s.requestsByDay (dayKey detail.Timestamp) 1
    requestsByHour := bump s.requestsByHour (hourKey detail.Timestamp) 1
    tokensByDay := bump s.tokensByDay (dayKey detail.Timestamp) totalTokens
    tokensByHour := bump s.tokensByHour (hourKey detail.Timestamp) totalTokens }

/-- Normalise and timestamp one incoming snapshot detail (the two
assignments at the head of the detail loop); `now` is the wall clock read
when the timestamp is zero. -/
def prepDetail (now : Int) (detail : RequestDetail) : RequestDetail :=
  let detail := { detail with Tokens := normaliseTokenStats detail.Tokens }
  if detail.Timestamp = 0 then { detail with Timestamp := now } else detail

/-- The model-name normalisation of the merge loop (trim, `"unknown"` when
empty). -/
def modelKey (modelName : String) : String :=
  if trimSpace modelName = "" then "unknown" else trimSpace modelName

/-- The detail loop of `MergeSnapshot` for one model's detail list. -/
def mergeDetails (now : Int) (apiName modelName : String) :
    RequestStatistics → List DedupKey → MergeResult → List RequestDetail →
    RequestStatistics × List DedupKey × MergeResult
  | s, seen, res, [] => (s, seen, res)
  | s, seen, res, detail :: rest =>
      let detail := prepDetail now detail
      let key := dedupKey apiName modelName detail
      if key ∈ seen then
        mergeDetails now apiName modelName s seen { res with Skipped := res.Skipped + 1 } rest
      else
        mergeDetails now apiName modelName (recordImported s apiName modelName detail)
          (key :: seen) { res with Added := res.Added + 1 } rest

/-- The model loop of `MergeSnapshot`: trims the model name, substituting
`"unknown"` for an empty one. -/
def mergeModels (now : Int) (apiName : String) :
    RequestStatistics → List DedupKey → MergeResult → List (String × ModelSnapshot) →
    RequestStatistics × List DedupKey × MergeResult
  | s, seen, res, [] => (s, seen, res)
  | s, seen, res, (modelName, modelSnapshot) :: rest =>
      let modelName := modelKey modelName
      let step := mergeDetails now apiName modelName s seen res modelSnapshot.Details
      mergeModels now apiName step.1 step.2.1 step.2.2 rest

/-- Insert an empty identity rollup when the key is absent (the
`if !ok`-branch before the model loop). -/
def ensureApi (s : RequestStatistics) (apiName : String) : RequestStatistics :=
  if (alookup s.apis apiName).isSome then s
  else { s with apis := s.apis ++ [(apiName, {})] }

/-- The API loop of `MergeSnapshot`: trims the identity, skipping an empty
one entirely. -/
def mergeApis (now : Int) :
    RequestStatistics → List DedupKey → MergeResult → List (String × APISnapshot) →
    RequestStatistics × List DedupKey × MergeResult
  | s, seen, res, [] => (s, seen, res)
  | s, seen, res, (apiName, apiSnapshot) :: rest =>
      let apiName := trimSpace apiName
      if apiName = "" then mergeApis now s seen res rest
      else
        let s := ensureApi s apiName
        let step := mergeModels now apiName s seen res apiSnapshot.Models
        mergeApis now step.1 step.2.1 step.2.2 rest

/-- The dedup keys contributed by one identity rollup (inner loops of the
`seen` construction). -/
def apiKeys (apiName : String) (stats : apiStats) : List DedupKey :=
  stats.Models.flatMap fun m => m.2.Details.map (dedupKey apiName m.1)

/-- The `seen` set built from the store before merging: the dedup key of
every stored detail under its identity and model. -/
def storeSeen (s : RequestStatistics) : List DedupKey :=
  s.apis.flatMap fun api => apiKeys api.1 api.2

/-- `MergeSnapshot`: idempotent deduplicated merge of an external
snapshot; `now` is the wall clock assigned to zero-timestamp details. -/
def MergeSnapshot (s : RequestStatistics) (snapshot : StatisticsSnapshot) (now : Int) :
    RequestStatistics × MergeResult :=
  let run := mergeApis now s (storeSeen s) {} snapshot.APIs
  (run.1, run.2.2)

/-- Number of detail rows under one identity's model list. -/
def modelsDetailCount (models : List (String × ModelSnapshot)) : Int :=
  (models.map fun m => (m.2.Details.length : Int)).sum

/-- Number of detail rows under a snapshot's identity list. -/
def apisDetailCount (apis : List (String × APISnapshot)) : Int :=
  (apis.map fun p => modelsDetailCount p.2.Models).sum

/-- Total number of detail rows carried by a snapshot. -/
def snapshotDetailCount (snapshot : StatisticsSnapshot) : Int :=
  apisDetailCount snapshot.APIs

/-! ### Database driver selection (`database.Init`,
`internal/database/database.go` lines 30-88) -/

/-- `database.Config`. -/
structure DBConfig where
  Driver : String := ""
  DSN : String := ""
  LogDir : String := ""
deriving DecidableEq, Repr

/-- A GORM dialector as chosen by `Init`. -/
inductive Dialector where
  | mysql (dsn : String) : Dialector
  | sqlite (path : String) : Dialector
deriving DecidableEq, Repr

/-- The SQLite path logic shared by the `sqlite` and default branches:
an empty DSN falls back to `cliproxy.db`, inside `LogDir` when set
(`filepath.Join` modelled as `/`-concatenation). -/
def sqlitePath (cfg : DBConfig) : String :=
  if cfg.DSN = "" then
    if cfg.LogDir ≠ "" then cfg.LogDir ++ "/cliproxy.db" else "cliproxy.db"
  else cfg.DSN

/-- The driver switch of `database.Init`: `mysql` and `sqlite`/`sqlite3`
are recognized; every other driver string falls into the default branch,
which opens SQLite with the same path logic and reports no error. -/
def selectDialector (cfg : DBConfig) : Dialector :=
  match lowerString cfg.Driver with
  | "mysql" => .mysql cfg.DSN
  | "sqlite" => .sqlite (sqlitePath cfg)
  | "sqlite3" => .sqlite (sqlitePath cfg)
  | _ => .sqlite (sqlitePath cfg)

/-- The recognized driver names of the switch. -/
def recognizedDrivers : List String := ["mysql", "sqlite", "sqlite3"]

/-! ### Auxiliary predicates and concrete example documents used by the
claim statements -/

/-- Whether a line is a data chunk whose JSON declares a non-empty finish
reason (a "terminal chunk"). -/
def SSELine.terminalChunk : SSELine → Bool
  | .other _ => false
  | .dataLine _ _ doc => doc.elim false terminalReason

/-- Whether the strip rewrite leaves a line unchanged (non-data lines
trivially; data lines when `StripUsageMetadataFromJSON` reports no
change). -/
def SSELine.stripUnchanged : SSELine → Bool
  | .other _ => true
  | .dataLine _ _ doc => !(StripUsageMetadataFromJSON doc).2

/-- A stop-without-usage chunk with trace id `"abc"` (the worked example of
the spec). -/
def c2StopChunk : Json :=
  .obj [("candidates", .arr [.obj [("finishReason", .str "STOP")]]),
        ("traceId", .str "abc")]

/-- A single-line SSE payload carrying `c2StopChunk`. -/
def c2Payload : List SSELine := [.dataLine "" " " (some c2StopChunk)]

/-- A non-terminal chunk carrying usage metadata and trace id `"t"`. -/
def c3UsageChunk : Json :=
  .obj [("usageMetadata", .obj [("totalTokenCount", .num 5)]),
        ("traceId", .str "t")]

/-- A terminal chunk (finish reason `STOP`) carrying usage metadata. -/
def c4TerminalChunk : Json :=
  .obj [("candidates", .arr [.obj [("finishReason", .str "STOP")]]),
        ("usageMetadata", .obj [("totalTokenCount", .num 5)])]

/-- The OpenAI usage document of claim C5. -/
def c5doc : Json :=
  .obj [("usage", .obj [("prompt_tokens", .num 1), ("completion_tokens", .num 2)])]

/-- A Claude usage document declaring a (to-be-ignored) total and a zero
cache-read count with a non-zero cache-creation count. -/
def c10doc : Json :=
  .obj [("usage", .obj [("input_tokens", .num 3), ("output_tokens", .num 4),
        ("total_tokens", .num 99), ("cache_read_input_tokens", .num 0),
        ("cache_creation_input_tokens", .num 6)])]

/-- A snapshot whose single API identity is whitespace-only, with one
detail row (non-zero timestamp). -/
def c7BlankSnapshot : StatisticsSnapshot :=
  { APIs := [(" ", { Models := [("m", { Details := [{ Timestamp := 5 }] })] })] }

/-- A snapshot with one normal identity and one detail row. -/
def c7Snap : StatisticsSnapshot :=
  { APIs := [("a", { Models := [("m", { Details :=
      [{ Timestamp := 5, Source := "s", AuthIndex := "0",
         Tokens := { InputTokens := 1, OutputTokens := 2 }, Failed := false }] })] })] }

/-! ### Theorems -/

theorem applyCall_fired (r : usageReporter) (h : r.onceFired = true) (c : CompletionCall) :
    applyCall (some r) c = (some r, none) := by
  cases c <;>
    simp [applyCall, publish, publishFailure, ensurePublished, publishWithOutcome, h]

theorem runCalls_fired (r : usageReporter) (h : r.onceFired = true) (cs : List CompletionCall) :
    runCalls (some r) cs = (some r, []) := by
  induction cs with
  | nil => rfl
  | cons c cs ih => simp [runCalls, applyCall_fired r h c, ih]

theorem applyCall_fresh (r : usageReporter) (h : r.onceFired = false) (c : CompletionCall) :
    ∃ rec : Record, applyCall (some r) c = (some { r with onceFired := true }, some rec) := by
  cases c <;>
    simp [applyCall, publish, publishFailure, ensurePublished, publishWithOutcome, h]

/-- C1: for every reporter whose publish latch has not fired, any sequence
of completion calls (a success `publish`, a `publishFailure`, an
`ensurePublished`, in any order) hands exactly one `usage.Record` to
`usage.PublishRecord`: the first call publishes its record and every later
call is a no-op that leaves the reporter in the fired state.  (The claim's
"two or more calls" is the instance with `cs` non-empty.) -/
theorem c1_exactly_once_publish (r : usageReporter) (c : CompletionCall)
    (cs : List CompletionCall) (h : r.onceFired = false) :
    ∃ rec : Record, applyCall (some r) c = (some { r with onceFired := true }, some rec) ∧
      runCalls (some r) (c :: cs) = (some { r with onceFired := true }, [rec]) := by
  obtain ⟨rec, hrec⟩ := applyCall_fresh r h c
  refine ⟨rec, hrec, ?_⟩
  simp [runCalls, hrec, runCalls_fired { r with onceFired := true } rfl cs]

theorem c1_witness :
    ∃ rec : Record,
      applyCall (some ({} : usageReporter)) .failure
        = (some { ({} : usageReporter) with onceFired := true }, some rec) ∧
      runCalls (some ({} : usageReporter)) [.failure, .ensure, .publishDetail {}]
        = (some { ({} : usageReporter) with onceFired := true }, [rec]) :=
  c1_exactly_once_publish {} .failure [.ensure, .publishDetail {}] rfl

/-- C9: every reporter capture method (`SetInput`, `SetOutput`,
`AppendOutput`, `CaptureStreamChunk`) is a no-op on a nil receiver or an
empty payload: the reporter state is returned unchanged (and, the
functions being total, no fault occurs). -/
theorem c9_capture_noops :
    (∀ payload : String, SetInput none payload = none) ∧
    (∀ r : usageReporter, SetInput (some r) "" = some r) ∧
    (∀ payload : String, SetOutput none payload = none) ∧
    (∀ r : usageReporter, SetOutput (some r) "" = some r) ∧
    (∀ chunk : String, AppendOutput none chunk = none) ∧
    (∀ r : usageReporter, AppendOutput (some r) "" = some r) ∧
    (∀ chunk : StreamChunk, CaptureStreamChunk none chunk = none) ∧
    (∀ r : usageReporter, CaptureStreamChunk (some r) .empty = some r) := by
  exact ⟨fun _ => rfl, fun r => rfl, fun _ => rfl, fun r => rfl,
         fun _ => rfl, fun r => rfl, fun _ => rfl, fun r => rfl⟩

/-- C5: parsing `{"usage":{"prompt_tokens":1,"completion_tokens":2}}` with
the OpenAI parser yields Input 1, Output 2 and a zero declared total, and
publishing that detail emits a record whose `UsageDetail` has
`TotalTokens` 3, derived as Input+Output+Reasoning. -/
theorem c5_openai_parse_publish :
    parseOpenAIUsage c5doc = { InputTokens := 1, OutputTokens := 2 } ∧
    ((publishWithOutcome (some {}) (parseOpenAIUsage c5doc) false).2).map Record.Detail
      = some { InputTokens := 1, OutputTokens := 2, TotalTokens := 3 } := by
  constructor <;> rfl

/-- C6: the total-token derivation of the pipeline.  If `TotalTokens` is
zero it becomes Input+Output+Reasoning; if that sum is itself zero the
cached count is folded in; a non-zero total is left untouched; the
derivation is idempotent (applied at most once per detail instance);
`normaliseDetail` agrees with `normaliseTokenStats` on the converted
detail; and the earlier partial derivation of `publishWithOutcome`
(`deriveTotal`) commutes with it. -/
theorem c6_total_derivation (t : TokenStats) :
    (t.TotalTokens = 0 → t.InputTokens + t.OutputTokens + t.ReasoningTokens ≠ 0 →
      normaliseTokenStats t
        = { t with TotalTokens := t.InputTokens + t.OutputTokens + t.ReasoningTokens }) ∧
    (t.TotalTokens = 0 → t.InputTokens + t.OutputTokens + t.ReasoningTokens = 0 →
      normaliseTokenStats t
        = { t with TotalTokens :=
              t.InputTokens + t.OutputTokens + t.ReasoningTokens + t.CachedTokens }) ∧
    (t.TotalTokens ≠ 0 → normaliseTokenStats t = t) ∧
    normaliseTokenStats (normaliseTokenStats t) = normaliseTokenStats t ∧
    (∀ d : Detail, normaliseDetail d = normaliseTokenStats
      { InputTokens := d.InputTokens, OutputTokens := d.OutputTokens,
        ReasoningTokens := d.ReasoningTokens, CachedTokens := d.CachedTokens,
        TotalTokens := d.TotalTokens }) ∧
    (∀ d : Detail, normaliseDetail (deriveTotal d) = normaliseDetail d) := by
  refine ⟨?_, ?_, ?_, ?_, ?_, ?_⟩
  · intro h hsum
    simp [normaliseTokenStats, h, hsum]
  · intro h hsum
    simp [normaliseTokenStats, h, hsum]
  · intro h
    simp [normaliseTokenStats, h]
  · by_cases h : t.TotalTokens = 0
    · by_cases hsum : t.InputTokens + t.OutputTokens + t.ReasoningTokens = 0
      · by_cases hc : t.CachedTokens = 0
        · simp [normaliseTokenStats, h, hsum, hc]
        · simp [normaliseTokenStats, h, hsum, hc]
      · simp [normaliseTokenStats, h, hsum]
    · simp [normaliseTokenStats, h]
  · intro d
    by_cases h : d.TotalTokens = 0 <;>
      by_cases h2 : d.InputTokens + d.OutputTokens + d.ReasoningTokens = 0 <;>
        simp [normaliseDetail, normaliseTokenStats, h, h2]
  · intro d
    by_cases h : d.TotalTokens = 0
    · by_cases hpos : d.InputTokens + d.OutputTokens + d.ReasoningTokens > 0
      · have hne : d.InputTokens + d.OutputTokens + d.ReasoningTokens ≠ 0 := ne_of_gt hpos
        simp [deriveTotal, normaliseDetail, h, hpos, hne]
      · simp [deriveTotal, normaliseDetail, h, hpos]
    · simp [deriveTotal, h]

theorem c6_witness :
    normaliseTokenStats { InputTokens := 1 } = { InputTokens := 1, TotalTokens := 1 } ∧
    normaliseTokenStats { CachedTokens := 4 } = { CachedTokens := 4, TotalTokens := 4 } ∧
    normaliseTokenStats { InputTokens := 9, TotalTokens := 7 }
      = { InputTokens := 9, TotalTokens := 7 } := by
  refine ⟨?_, ?_, ?_⟩
  · exact ((c6_total_derivation { InputTokens := 1 }).1 rfl (by decide)).trans (by decide)
  · exact ((c6_total_derivation { CachedTokens := 4 }).2.1 rfl (by decide)).trans (by decide)
  · exact ((c6_total_derivation { InputTokens := 9, TotalTokens := 7 }).2.2.1 (by decide)).trans
      (by decide)

/-- C10: whenever the `usage` node exists, the Claude parsers set
`TotalTokens` to exactly InputTokens + OutputTokens — no declared total
field is consulted and neither cached nor reasoning tokens enter the
total — and set `CachedTokens` from `cache_read_input_tokens`, falling
back to `cache_creation_input_tokens` when the read count is zero; the
stream parser reports the same detail as found. -/
theorem c10_claude_parsers (j usageNode : Json) (h : jget j ["usage"] = some usageNode) :
    parseClaudeUsage j =
      { InputTokens := jIntOpt (jget usageNode ["input_tokens"])
        OutputTokens := jIntOpt (jget usageNode ["output_tokens"])
        ReasoningTokens := 0
        CachedTokens :=
          if jIntOpt (jget usageNode ["cache_read_input_tokens"]) = 0 then
            jIntOpt (jget usageNode ["cache_creation_input_tokens"])
          else jIntOpt (jget usageNode ["cache_read_input_tokens"])
        TotalTokens := jIntOpt (jget usageNode ["input_tokens"])
          + jIntOpt (jget usageNode ["output_tokens"]) } ∧
    parseClaudeStreamUsage (some j) = some (parseClaudeUsage j) := by
  constructor
  · simp [parseClaudeUsage, h]
  · simp [parseClaudeUsage, parseClaudeStreamUsage, h]

theorem c10_witness :
    parseClaudeUsage c10doc
      = { InputTokens := 3, OutputTokens := 4, ReasoningTokens := 0,
          CachedTokens := 6, TotalTokens := 7 } ∧
    parseClaudeStreamUsage (some c10doc)
      = some { InputTokens := 3, OutputTokens := 4, ReasoningTokens := 0,
               CachedTokens := 6, TotalTokens := 7 } := by
  have h := c10_claude_parsers c10doc
    (.obj [("input_tokens", .num 3), ("output_tokens", .num 4),
           ("total_tokens", .num 99), ("cache_read_input_tokens", .num 0),
           ("cache_creation_input_tokens", .num 6)]) rfl
  refine ⟨h.1.trans (by decide), ?_⟩
  rw [h.2, h.1]
  decide

/-- C8 counterexample: `database.Init` with the unrecognized driver
`"postgres"` does not surface an error; its switch falls into the default
branch and silently opens a SQLite database at the default path, so the
claim that an unrecognized driver never silently opens SQLite is false. -/
theorem c8_counterexample :
    selectDialector { Driver := "postgres" } = .sqlite "cliproxy.db" ∧
    "postgres" ∉ recognizedDrivers := by
  constructor
  · rfl
  · decide

/-- C8 amended: for every configuration whose driver string (lower-cased)
is not a recognized driver name, `database.Init` silently substitutes the
SQLite backend with the default path logic instead of surfacing an
error. -/
theorem c8_amended_default_sqlite (cfg : DBConfig)
    (h : lowerString cfg.Driver ∉ recognizedDrivers) :
    selectDialector cfg = .sqlite (sqlitePath cfg) := by
  simp only [recognizedDrivers, List.mem_cons, List.not_mem_nil, or_false, not_or] at h
  obtain ⟨h1, h2, h3⟩ := h
  unfold selectDialector
  split
  · exact absurd (by assumption) h1
  · exact absurd (by assumption) h2
  · exact absurd (by assumption) h3
  · rfl

theorem c8_witness :
    selectDialector { Driver := "oracle", DSN := "x.db" } = .sqlite "x.db" :=
  c8_amended_default_sqlite { Driver := "oracle", DSN := "x.db" } (by decide)

theorem strip_unchanged_of_terminal (j : Json) (h : terminalReason j = true) :
    StripUsageMetadataFromJSON (some j) = (some j, false) := by
  simp [StripUsageMetadataFromJSON, h]

theorem isStop_false_of_hasUsage (doc : Option Json) (h : hasUsageMetadata doc = true) :
    isStopChunkWithoutUsage doc = false := by
  cases doc with
  | none => simp [hasUsageMetadata] at h
  | some j => simp [isStopChunkWithoutUsage, h]

theorem lineStep_unchanged (mem : List String) (l : SSELine) (h : l.stripUnchanged = true) :
    ∃ mem', lineStep mem l = (mem', l, false) := by
  cases l with
  | other raw => exact ⟨mem, rfl⟩
  | dataLine pre sep doc =>
      have h' : (StripUsageMetadataFromJSON doc).2 = false := by
        simpa [SSELine.stripUnchanged] using h
      by_cases h1 : isStopChunkWithoutUsage doc = true ∧ traceIdOf doc ≠ ""
      · exact ⟨memInsert (traceIdOf doc) mem, by simp [lineStep, h1]⟩
      · by_cases h2 : traceIdOf doc ≠ "" ∧ traceIdOf doc ∈ mem ∧ hasUsageMetadata doc = true
        · have hA : isStopChunkWithoutUsage doc = false := isStop_false_of_hasUsage doc h2.2.2
          exact ⟨mem.erase (traceIdOf doc), by simp [lineStep, hA, h2]⟩
        · refine ⟨mem, ?_⟩
          rcases hs : StripUsageMetadataFromJSON doc with ⟨c, b⟩
          have hb : b = false := by rw [hs] at h'; exact h'
          subst hb
          simp [lineStep, h1, h2, hs]

theorem filterLines_unchanged (lines : List SSELine)
    (h : ∀ l ∈ lines, l.stripUnchanged = true) (mem : List String) :
    ∃ mem', filterLines mem lines = (mem', lines, false) := by
  induction lines generalizing mem with
  | nil => exact ⟨mem, rfl⟩
  | cons l ls ih =>
      obtain ⟨mem1, h1⟩ := lineStep_unchanged mem l (h l (by simp))
      obtain ⟨mem2, h2⟩ := ih (fun x hx => h x (by simp [hx])) mem1
      exact ⟨mem2, by simp [filterLines, h1, h2]⟩

theorem stripUnchanged_of_terminal (l : SSELine) (h : l.terminalChunk = true) :
    l.stripUnchanged = true := by
  cases l with
  | other _ => rfl
  | dataLine pre sep doc =>
      cases doc with
      | none => simp [SSELine.terminalChunk] at h
      | some j =>
          have hj : terminalReason j = true := by
            simpa [SSELine.terminalChunk] using h
          simp [SSELine.stripUnchanged, strip_unchanged_of_terminal j hj]

/-- C4: a payload consisting of terminal chunks (every line a data line
whose JSON declares a non-empty finish reason) passes through
`FilterSSEUsageMetadata` byte-identically — the source returns the
original byte slice; and, more generally, any payload containing a data
line in which no line is changed by the strip rewrite is returned
unchanged, preserving line order and non-data lines verbatim.  (A payload
with no data line at all is instead treated as one raw JSON document, the
separate fallback of rule 6 of the spec.) -/
theorem c4_terminal_passthrough (mem : List String) (payload : List SSELine)
    (wholeDoc : Option Json) (hdata : payload.any SSELine.isData = true) :
    ((∀ l ∈ payload, l.terminalChunk = true) →
      (FilterSSEUsageMetadata mem payload wholeDoc).2 = payload) ∧
    ((∀ l ∈ payload, l.stripUnchanged = true) →
      (FilterSSEUsageMetadata mem payload wholeDoc).2 = payload) := by
  have main : (∀ l ∈ payload, l.stripUnchanged = true) →
      (FilterSSEUsageMetadata mem payload wholeDoc).2 = payload := by
    intro h
    obtain ⟨mem', hf⟩ := filterLines_unchanged payload h mem
    have hne : payload.isEmpty = false := by
      cases payload with
      | nil => simp at hdata
      | cons a as => rfl
    simp [FilterSSEUsageMetadata, hne, hf, hdata]
  exact ⟨fun h => main fun l hl => stripUnchanged_of_terminal l (h l hl), main⟩

theorem c4_witness :
    (FilterSSEUsageMetadata [] [.dataLine "" " " (some c4TerminalChunk),
        .other "event: chunk"] none).2
      = [.dataLine "" " " (some c4TerminalChunk), .other "event: chunk"] :=
  (c4_terminal_passthrough [] [.dataLine "" " " (some c4TerminalChunk),
      .other "event: chunk"] none rfl).2 (by decide)

/-- C2 counterexample: a data line declaring a finish reason with no usage
metadata and a non-empty trace id is NOT removed from the rewritten
output: the filter records the trace id in the correlation memory and
returns the payload unchanged (the loop `continue`s without touching the
line, and with nothing modified the original bytes are returned). -/
theorem c2_counterexample :
    isStopChunkWithoutUsage (some c2StopChunk) = true ∧
    traceIdOf (some c2StopChunk) = "abc" ∧
    FilterSSEUsageMetadata [] c2Payload none = (["abc"], c2Payload) := by
  refine ⟨by decide, by decide, ?_⟩
  rfl

/-- C2 amended: for every stop-without-usage data chunk with a non-empty
trace id, `FilterSSEUsageMetadata` records the trace id in the correlation
memory and passes the line through unchanged (it is not dropped). -/
theorem c2_amended_record_passthrough (mem : List String) (pre sep : String)
    (doc wholeDoc : Option Json)
    (h1 : isStopChunkWithoutUsage doc = true) (h2 : traceIdOf doc ≠ "") :
    FilterSSEUsageMetadata mem [.dataLine pre sep doc] wholeDoc
      = (memInsert (traceIdOf doc) mem, [.dataLine pre sep doc]) := by
  have hstep : lineStep mem (.dataLine pre sep doc)
      = (memInsert (traceIdOf doc) mem, .dataLine pre sep doc, false) := by
    simp [lineStep, h1, h2]
  simp [FilterSSEUsageMetadata, filterLines, hstep, SSELine.isData]

theorem c2_witness :
    FilterSSEUsageMetadata ["x"] [.dataLine "sse " "  " (some c2StopChunk)] none
      = (["abc", "x"], [.dataLine "sse " "  " (some c2StopChunk)]) :=
  c2_amended_record_passthrough ["x"] "sse " "  " (some c2StopChunk) none
    (by decide) (by decide)

theorem alookup_aset_self {α : Type} (l : List (String × α)) (k : String) (v : α) :
    alookup (aset l k v) k = some v := by
  induction l with
  | nil => simp [aset, alookup]
  | cons p rest ih =>
      obtain ⟨k', v'⟩ := p
      by_cases h : k' = k <;> simp [aset, alookup, h, ih]

theorem alookup_aset_ne {α : Type} (l : List (String × α)) (k k' : String) (v : α)
    (h : k' ≠ k) : alookup (aset l k v) k' = alookup l k' := by
  induction l with
  | nil => simp [aset, alookup, Ne.symm h]
  | cons p rest ih =>
      obtain ⟨k'', v'⟩ := p
      by_cases hk : k'' = k
      · subst hk
        simp [aset, alookup, Ne.symm h]
      · by_cases hk' : k'' = k' <;> simp [aset, alookup, hk, hk', ih, h]

theorem alookup_adel_ne {α : Type} (l : List (String × α)) (k k' : String)
    (h : k' ≠ k) : alookup (adel l k) k' = alookup l k' := by
  induction l with
  | nil => simp [adel]
  | cons p rest ih =>
      obtain ⟨k'', v'⟩ := p
      by_cases hk : k'' = k
      · subst hk
        simp [adel, alookup, Ne.symm h]
      · by_cases hk' : k'' = k' <;> simp [adel, alookup, hk, hk', ih, h]

theorem alookup_eq_none_of_keyCount_zero {α : Type} (l : List (String × α)) (k : String)
    (h : keyCount l k = 0) : alookup l k = none := by
  induction l with
  | nil => rfl
  | cons p rest ih =>
      obtain ⟨k', v'⟩ := p
      by_cases hk : k' = k
      · simp [keyCount, hk] at h
      · simp [keyCount, hk] at h
        simp [alookup, hk, ih h]

theorem alookup_adel_self {α : Type} (l : List (String × α)) (k : String)
    (h : keyCount l k ≤ 1) : alookup (adel l k) k = none := by
  induction l with
  | nil => rfl
  | cons p rest ih =>
      obtain ⟨k', v'⟩ := p
      by_cases hk : k' = k
      · simp [keyCount, hk] at h
        simp [adel, hk]
        exact alookup_eq_none_of_keyCount_zero rest k h
      · simp [keyCount, hk] at h
        simp [adel, alookup, hk, ih h]

theorem keyCount_aset_ne {α : Type} (l : List (String × α)) (k k' : String) (v : α)
    (h : k' ≠ k) : keyCount (aset l k v) k' = keyCount l k' := by
  induction l with
  | nil => simp [aset, keyCount, Ne.symm h]
  | cons p rest ih =>
      obtain ⟨k'', v'⟩ := p
      by_cases hk : k'' = k
      · subst hk
        simp [aset, keyCount, Ne.symm h]
      · simp [aset, keyCount, hk, ih]

theorem aset_aset_same {α : Type} (l : List (String × α)) (k : String) (v w : α) :
    aset (aset l k v) k w = aset l k w := by
  induction l with
  | nil => simp [aset]
  | cons p rest ih =>
      obtain ⟨k', v'⟩ := p
      by_cases hk : k' = k <;> simp [aset, hk, ih]

theorem jget_obj_cons (fields : List (String × Json)) (k : String) (rest : List String) :
    jget (.obj fields) (k :: rest)
      = match alookup fields k with
        | some child => jget child rest
        | none => none := rfl

theorem jsetPath_single (fields : List (String × Json)) (k : String) (v : Json) :
    jsetPath (.obj fields) [k] v = .obj (aset fields k v) := by
  unfold jsetPath
  cases h : alookup fields k <;> simp [h, jsetPath]

theorem strip_rename_top (fields : List (String × Json)) (um : Json)
    (hterm : terminalReason (.obj fields) = false)
    (hum : alookup fields "usageMetadata" = some um)
    (hresp : jget (.obj fields) ["response", "usageMetadata"] = none) :
    StripUsageMetadataFromJSON (some (.obj fields))
      = (some (.obj (adel (aset fields "cpaUsageMetadata" um) "usageMetadata")), true) := by
  have hj : jget (Json.obj fields) ["usageMetadata"] = some um := by
    simp [jget, jget1, hum]
  have husage : hasUsageMetadata (some (.obj fields)) = true := by
    simp [hasUsageMetadata, hj]
  have hstep1 : jdelPath (jsetPath (Json.obj fields) ["cpaUsageMetadata"] um) ["usageMetadata"]
      = .obj (adel (aset fields "cpaUsageMetadata" um) "usageMetadata") := by
    rw [jsetPath_single]
    rfl
  have hlook : alookup (adel (aset fields "cpaUsageMetadata" um) "usageMetadata") "response"
      = alookup fields "response" := by
    rw [alookup_adel_ne _ _ _ (by decide), alookup_aset_ne _ _ _ _ (by decide)]
  have hresp2 : jget (Json.obj (adel (aset fields "cpaUsageMetadata" um) "usageMetadata"))
      ["response", "usageMetadata"] = none := by
    rw [jget_obj_cons, hlook]
    rw [jget_obj_cons] at hresp
    exact hresp
  simp [StripUsageMetadataFromJSON, hterm, husage, hj, hstep1, hresp2]

theorem strip_rename_response (fields rs : List (String × Json)) (um : Json)
    (hterm : terminalReason (.obj fields) = false)
    (htop : alookup fields "usageMetadata" = none)
    (hrespv : alookup fields "response" = some (.obj rs))
    (hum : alookup rs "usageMetadata" = some um) :
    StripUsageMetadataFromJSON (some (.obj fields))
      = (some (.obj (aset fields "response"
          (.obj (adel (aset rs "cpaUsageMetadata" um) "usageMetadata")))), true) := by
  have hjtop : jget (Json.obj fields) ["usageMetadata"] = none := by
    simp [jget, jget1, htop]
  have hjresp : jget (Json.obj fields) ["response", "usageMetadata"] = some um := by
    rw [jget_obj_cons, hrespv]
    simp [jget, jget1, hum]
  have husage : hasUsageMetadata (some (.obj fields)) = true := by
    simp [hasUsageMetadata, hjresp]
  have hset : jsetPath (Json.obj fields) ["response", "cpaUsageMetadata"] um
      = .obj (aset fields "response" (.obj (aset rs "cpaUsageMetadata" um))) := by
    unfold jsetPath
    simp only [hrespv]
    rw [jsetPath_single]
  have hF : alookup (aset fields "response" (.obj (aset rs "cpaUsageMetadata" um))) "response"
      = some (.obj (aset rs "cpaUsageMetadata" um)) := alookup_aset_self _ _ _
  have hdel : jdelPath (.obj (aset fields "response" (.obj (aset rs "cpaUsageMetadata" um))))
      ["response", "usageMetadata"]
      = .obj (aset fields "response"
          (.obj (adel (aset rs "cpaUsageMetadata" um) "usageMetadata"))) := by
    simp only [jdelPath, hF, aset_aset_same]
  simp [StripUsageMetadataFromJSON, hterm, husage, hjtop, hjresp, hset, hdel]

theorem filter_pass_delete (mem : List String) (pre sep : String) (doc wholeDoc : Option Json)
    (h1 : traceIdOf doc ≠ "") (h2 : traceIdOf doc ∈ mem) (h3 : hasUsageMetadata doc = true) :
    FilterSSEUsageMetadata mem [.dataLine pre sep doc] wholeDoc
      = (mem.erase (traceIdOf doc), [.dataLine pre sep doc]) := by
  have hA : isStopChunkWithoutUsage doc = false := isStop_false_of_hasUsage doc h3
  have hstep : lineStep mem (.dataLine pre sep doc)
      = (mem.erase (traceIdOf doc), .dataLine pre sep doc, false) := by
    simp [lineStep, hA, h1, h2, h3]
  simp [FilterSSEUsageMetadata, filterLines, hstep, SSELine.isData]

/-- C3: (i) on a valid non-terminal chunk whose `usageMetadata` node is
top-level (occurring once, with no wrapped occurrence), the strip rewrite
moves exactly that node to `cpaUsageMetadata` at top level — same value —
and every other member is unchanged; (ii) the same at the `response`
wrapper level, also leaving every other top-level member unchanged; (iii) a
chunk whose trace id is present in the correlation memory and which
carries usage metadata passes through unchanged while its correlation
entry is deleted. -/
theorem c3_strip_rename_and_correlation :
    (∀ (fields : List (String × Json)) (um : Json),
      terminalReason (.obj fields) = false →
      alookup fields "usageMetadata" = some um →
      keyCount fields "usageMetadata" = 1 →
      jget (.obj fields) ["response", "usageMetadata"] = none →
      StripUsageMetadataFromJSON (some (.obj fields))
          = (some (.obj (adel (aset fields "cpaUsageMetadata" um) "usageMetadata")), true) ∧
        alookup (adel (aset fields "cpaUsageMetadata" um) "usageMetadata") "cpaUsageMetadata"
          = some um ∧
        alookup (adel (aset fields "cpaUsageMetadata" um) "usageMetadata") "usageMetadata"
          = none ∧
        (∀ k, k ≠ "usageMetadata" → k ≠ "cpaUsageMetadata" →
          alookup (adel (aset fields "cpaUsageMetadata" um) "usageMetadata") k
            = alookup fields k)) ∧
    (∀ (fields rs : List (String × Json)) (um : Json),
      terminalReason (.obj fields) = false →
      alookup fields "usageMetadata" = none →
      alookup fields "response" = some (.obj rs) →
      alookup rs "usageMetadata" = some um →
      keyCount rs "usageMetadata" = 1 →
      StripUsageMetadataFromJSON (some (.obj fields))
          = (some (.obj (aset fields "response"
              (.obj (adel (aset rs "cpaUsageMetadata" um) "usageMetadata")))), true) ∧
        alookup (adel (aset rs "cpaUsageMetadata" um) "usageMetadata") "cpaUsageMetadata"
          = some um ∧
        alookup (adel (aset rs "cpaUsageMetadata" um) "usageMetadata") "usageMetadata" = none ∧
        (∀ k, k ≠ "usageMetadata" → k ≠ "cpaUsageMetadata" →
          alookup (adel (aset rs "cpaUsageMetadata" um) "usageMetadata") k = alookup rs k) ∧
        (∀ k, k ≠ "response" →
          alookup (aset fields "response"
              (.obj (adel (aset rs "cpaUsageMetadata" um) "usageMetadata"))) k
            = alookup fields k)) ∧
    (∀ (mem : List String) (pre sep : String) (doc wholeDoc : Option Json),
      traceIdOf doc ≠ "" → traceIdOf doc ∈ mem → hasUsageMetadata doc = true →
      FilterSSEUsageMetadata mem [.dataLine pre sep doc] wholeDoc
        = (mem.erase (traceIdOf doc), [.dataLine pre sep doc])) := by
  refine ⟨?_, ?_, filter_pass_delete⟩
  · intro fields um hterm hum hcount hresp
    refine ⟨strip_rename_top fields um hterm hum hresp, ?_, ?_, ?_⟩
    · rw [alookup_adel_ne _ _ _ (by decide)]
      exact alookup_aset_self _ _ _
    · apply alookup_adel_self
      rw [keyCount_aset_ne _ _ _ _ (by decide)]
      exact hcount.le
    · intro k hk1 hk2
      rw [alookup_adel_ne _ _ _ hk1, alookup_aset_ne _ _ _ _ hk2]
  · intro fields rs um hterm htop hrespv hum hcount
    refine ⟨strip_rename_response fields rs um hterm htop hrespv hum, ?_, ?_, ?_, ?_⟩
    · rw [alookup_adel_ne _ _ _ (by decide)]
      exact alookup_aset_self _ _ _
    · apply alookup_adel_self
      rw [keyCount_aset_ne _ _ _ _ (by decide)]
      exact hcount.le
    · intro k hk1 hk2
      rw [alookup_adel_ne _ _ _ hk1, alookup_aset_ne _ _ _ _ hk2]
    · intro k hk
      rw [alookup_aset_ne _ _ _ _ hk]

theorem c3_witness :
    StripUsageMetadataFromJSON (some (.obj [("usageMetadata", .num 1), ("a", .num 2)]))
      = (some (.obj [("a", .num 2), ("cpaUsageMetadata", .num 1)]), true) ∧
    StripUsageMetadataFromJSON
        (some (.obj [("response", .obj [("usageMetadata", .num 3)]), ("x", .num 0)]))
      = (some (.obj [("response", .obj [("cpaUsageMetadata", .num 3)]), ("x", .num 0)]), true) ∧
    FilterSSEUsageMetadata ["t"] [.dataLine "" " " (some c3UsageChunk)] none
      = ([], [.dataLine "" " " (some c3UsageChunk)]) := by
  obtain ⟨p1, p2, p3⟩ := c3_strip_rename_and_correlation
  refine ⟨?_, ?_, ?_⟩
  · exact (p1 [("usageMetadata", .num 1), ("a", .num 2)] (.num 1)
      (by decide) rfl rfl rfl).1
  · exact (p2 [("response", .obj [("usageMetadata", .num 3)]), ("x", .num 0)]
      [("usageMetadata", .num 3)] (.num 3) (by decide) rfl rfl rfl rfl).1
  · exact p3 ["t"] "" " " (some c3UsageChunk) none (by decide) (by decide) (by decide)

theorem mem_flatMap_aset {α β : Type} (f : String → α → List β) (k : String) (v : α) :
    ∀ l : List (String × α),
    (∀ w, alookup l k = some w → ∀ b ∈ f k w, b ∈ f k v) →
    (∀ b ∈ l.flatMap (fun p => f p.1 p.2), b ∈ (aset l k v).flatMap (fun p => f p.1 p.2)) ∧
    (∀ b ∈ f k v, b ∈ (aset l k v).flatMap (fun p => f p.1 p.2)) := by
  intro l
  induction l with
  | nil =>
      intro _
      refine ⟨fun b hb => by simp at hb, fun b hb => ?_⟩
      simpa [aset] using hb
  | cons p rest ih =>
      obtain ⟨k', w⟩ := p
      intro hsub
      by_cases hk : k' = k
      · subst hk
        have hw : ∀ b ∈ f k' w, b ∈ f k' v := hsub w (by simp [alookup])
        have haset : aset ((k', w) :: rest) k' v = (k', v) :: rest := by simp [aset]
        constructor
        · intro b hb
          rw [List.flatMap_cons, List.mem_append] at hb
          rw [haset, List.flatMap_cons, List.mem_append]
          rcases hb with hb | hb
          · exact Or.inl (hw b hb)
          · exact Or.inr hb
        · intro b hb
          rw [haset, List.flatMap_cons, List.mem_append]
          exact Or.inl hb
      · have hsub' : ∀ w', alookup rest k = some w' → ∀ b ∈ f k w', b ∈ f k v := by
          intro w' hw'
          exact hsub w' (by simp [alookup, hk, hw'])
        obtain ⟨ih1, ih2⟩ := ih hsub'
        have haset : aset ((k', w) :: rest) k v = (k', w) :: aset rest k v := by
          simp [aset, hk]
        constructor
        · intro b hb
          rw [List.flatMap_cons, List.mem_append] at hb
          rw [haset, List.flatMap_cons, List.mem_append]
          rcases hb with hb | hb
          · exact Or.inl hb
          · exact Or.inr (ih1 b hb)
        · intro b hb
          rw [haset, List.flatMap_cons, List.mem_append]
          exact Or.inr (ih2 b hb)

theorem mem_flatMap_aupdate {α β : Type} (f : String → α → List β) (k : String) (g : α → α)
    (hsub : ∀ w, ∀ b ∈ f k w, b ∈ f k (g w)) :
    ∀ l : List (String × α),
    (∀ b ∈ l.flatMap (fun p => f p.1 p.2), b ∈ (aupdate l k g).flatMap (fun p => f p.1 p.2)) ∧
    (∀ w, alookup l k = some w →
      ∀ b ∈ f k (g w), b ∈ (aupdate l k g).flatMap (fun p => f p.1 p.2)) := by
  intro l
  induction l with
  | nil => exact ⟨fun b hb => by simp at hb, fun w hw => by simp [alookup] at hw⟩
  | cons p rest ih =>
      obtain ⟨k', w'⟩ := p
      by_cases hk : k' = k
      · subst hk
        have hup : aupdate ((k', w') :: rest) k' g = (k', g w') :: rest := by simp [aupdate]
        constructor
        · intro b hb
          rw [List.flatMap_cons, List.mem_append] at hb
          rw [hup, List.flatMap_cons, List.mem_append]
          rcases hb with hb | hb
          · exact Or.inl (hsub w' b hb)
          · exact Or.inr hb
        · intro w hw b hb
          have hw' : w' = w := by simpa [alookup] using hw
          subst hw'
          rw [hup, List.flatMap_cons, List.mem_append]
          exact Or.inl hb
      · have hup : aupdate ((k', w') :: rest) k g = (k', w') :: aupdate rest k g := by
          simp [aupdate, hk]
        constructor
        · intro b hb
          rw [List.flatMap_cons, List.mem_append] at hb
          rw [hup, List.flatMap_cons, List.mem_append]
          rcases hb with hb | hb
          · exact Or.inl hb
          · exact Or.inr (ih.1 b hb)
        · intro w hw b hb
          have hw2 : alookup rest k = some w := by simpa [alookup, hk] using hw
          rw [hup, List.flatMap_cons, List.mem_append]
          exact Or.inr (ih.2 w hw2 b hb)

theorem apiKeys_updateAPIStats (an mn : String) (d : RequestDetail) (st : apiStats) :
    (∀ b ∈ apiKeys an st, b ∈ apiKeys an (updateAPIStats st mn d)) ∧
    dedupKey an mn d ∈ apiKeys an (updateAPIStats st mn d) := by
  have hsub : ∀ w : modelStats, alookup st.Models mn = some w →
      ∀ b ∈ w.Details.map (dedupKey an mn),
        b ∈ (((alookup st.Models mn).getD {}).Details ++ [d]).map (dedupKey an mn) := by
    intro w hw b hb
    rw [hw, Option.getD_some, List.map_append]
    exact List.mem_append_left _ hb
  have h := mem_flatMap_aset
      (fun mn' (ms : modelStats) => ms.Details.map (dedupKey an mn')) mn
      { TotalRequests := ((alookup st.Models mn).getD {}).TotalRequests + 1
        TotalTokens := ((alookup st.Models mn).getD {}).TotalTokens + d.Tokens.TotalTokens
        Details := ((alookup st.Models mn).getD {}).Details ++ [d] }
      st.Models hsub
  have hM : apiKeys an (updateAPIStats st mn d)
      = (aset st.Models mn
          { TotalRequests := ((alookup st.Models mn).getD {}).TotalRequests + 1
            TotalTokens := ((alookup st.Models mn).getD {}).TotalTokens + d.Tokens.TotalTokens
            Details := ((alookup st.Models mn).getD {}).Details ++ [d] }).flatMap
        (fun p => p.2.Details.map (dedupKey an p.1)) := rfl
  constructor
  · intro b hb
    rw [hM]
    exact h.1 b hb
  · rw [hM]
    refine h.2 (dedupKey an mn d) ?_
    simp

theorem storeSeen_recordImported (s : RequestStatistics) (an mn : String) (d : RequestDetail) :
    (∀ b ∈ storeSeen s, b ∈ storeSeen (recordImported s an mn d)) ∧
    ((alookup s.apis an).isSome →
      dedupKey an mn d ∈ storeSeen (recordImported s an mn d)) := by
  have h := mem_flatMap_aupdate (fun an' (st : apiStats) => apiKeys an' st) an
      (fun st => updateAPIStats st mn d)
      (fun w => (apiKeys_updateAPIStats an mn d w).1) s.apis
  have hA : storeSeen (recordImported s an mn d)
      = (aupdate s.apis an (fun st => updateAPIStats st mn d)).flatMap
          (fun p => apiKeys p.1 p.2) := rfl
  constructor
  · intro b hb
    rw [hA]
    exact h.1 b hb
  · intro hsome
    obtain ⟨w, hw⟩ := Option.isSome_iff_exists.mp hsome
    rw [hA]
    exact h.2 w hw _ (apiKeys_updateAPIStats an mn d w).2

theorem alookup_aupdate_isSome {α : Type} (l : List (String × α)) (k k' : String) (g : α → α) :
    (alookup (aupdate l k g) k').isSome = (alookup l k').isSome := by
  induction l with
  | nil => rfl
  | cons p rest ih =>
      obtain ⟨k'', v⟩ := p
      by_cases hk : k'' = k
      · subst hk
        by_cases h2 : k'' = k'
        · subst h2
          simp [aupdate, alookup]
        · simp [aupdate, alookup, h2, ih]
      · by_cases h2 : k'' = k'
        · subst h2
          simp [aupdate, alookup, hk]
        · simp [aupdate, alookup, hk, h2, ih]

theorem recordImported_lookup_isSome (s : RequestStatistics) (an mn : String)
    (d : RequestDetail) (k : String) :
    (alookup (recordImported s an mn d).apis k).isSome = (alookup s.apis k).isSome := by
  have hA : (recordImported s an mn d).apis
      = aupdate s.apis an (fun st => updateAPIStats st mn d) := rfl
  rw [hA, alookup_aupdate_isSome]

theorem alookup_append {α : Type} (l l' : List (String × α)) (k : String) :
    alookup (l ++ l') k
      = match alookup l k with
        | some v => some v
        | none => alookup l' k := by
  induction l with
  | nil => simp [alookup]
  | cons p rest ih =>
      obtain ⟨k', v⟩ := p
      by_cases hk : k' = k <;> simp [alookup, hk, ih]

theorem ensureApi_lookup_self (s : RequestStatistics) (an : String) :
    (alookup (ensureApi s an).apis an).isSome := by
  unfold ensureApi
  cases hl : alookup s.apis an with
  | some v => simp [hl]
  | none => simp [hl, alookup_append, alookup]

theorem ensureApi_lookup_preserve (s : RequestStatistics) (an k : String)
    (h : (alookup s.apis k).isSome) : (alookup (ensureApi s an).apis k).isSome := by
  unfold ensureApi
  cases hl : alookup s.apis an with
  | some v => simpa using h
  | none =>
      obtain ⟨w, hw⟩ := Option.isSome_iff_exists.mp h
      simp [alookup_append, hw]

theorem ensureApi_storeSeen (s : RequestStatistics) (an : String) :
    ∀ b ∈ storeSeen s, b ∈ storeSeen (ensureApi s an) := by
  intro b hb
  unfold ensureApi
  cases hl : alookup s.apis an with
  | some v => simpa [storeSeen] using hb
  | none =>
      show b ∈ storeSeen { s with apis := s.apis ++ [(an, ({} : apiStats))] }
      simp only [storeSeen, List.mem_flatMap] at hb ⊢
      obtain ⟨p, hp, hbp⟩ := hb
      exact ⟨p, List.mem_append_left _ hp, hbp⟩

theorem ensureApi_eq (s : RequestStatistics) (an : String)
    (h : (alookup s.apis an).isSome) : ensureApi s an = s := by
  simp [ensureApi, h]

theorem mergeDetails_spec (now : Int) (an mn : String) :
    ∀ (ds : List RequestDetail) (s : RequestStatistics) (seen : List DedupKey)
      (res : MergeResult),
      (alookup s.apis an).isSome →
      (∀ key ∈ seen, key ∈ storeSeen s) →
      (∀ k, (alookup s.apis k).isSome →
          (alookup (mergeDetails now an mn s seen res ds).1.apis k).isSome) ∧
        (∀ b ∈ storeSeen s, b ∈ storeSeen (mergeDetails now an mn s seen res ds).1) ∧
        (∀ key ∈ (mergeDetails now an mn s seen res ds).2.1,
          key ∈ storeSeen (mergeDetails now an mn s seen res ds).1) ∧
        (∀ key ∈ seen, key ∈ (mergeDetails now an mn s seen res ds).2.1) ∧
        (∀ d' ∈ ds, dedupKey an mn (prepDetail now d')
          ∈ (mergeDetails now an mn s seen res ds).2.1) := by
  intro ds
  induction ds with
  | nil =>
      intro s seen res han hsub
      exact ⟨fun k hk => hk, fun b hb => hb, hsub, fun key hk => hk, by simp⟩
  | cons d rest ih =>
      intro s seen res han hsub
      by_cases hmem : dedupKey an mn (prepDetail now d) ∈ seen
      · have heq : mergeDetails now an mn s seen res (d :: rest)
            = mergeDetails now an mn s seen { res with Skipped := res.Skipped + 1 } rest := by
          simp [mergeDetails, hmem]
        rw [heq]
        obtain ⟨h1, h2, h3, h4, h5⟩ := ih s seen _ han hsub
        refine ⟨h1, h2, h3, h4, ?_⟩
        intro d' hd'
        rcases List.mem_cons.mp hd' with hd' | hd'
        · subst hd'
          exact h4 _ hmem
        · exact h5 d' hd'
      · have heq : mergeDetails now an mn s seen res (d :: rest)
            = mergeDetails now an mn (recordImported s an mn (prepDetail now d))
                (dedupKey an mn (prepDetail now d) :: seen)
                { res with Added := res.Added + 1 } rest := by
          simp [mergeDetails, hmem]
        rw [heq]
        have han' : (alookup (recordImported s an mn (prepDetail now d)).apis an).isSome := by
          rw [recordImported_lookup_isSome]
          exact han
        have hsub' : ∀ key ∈ dedupKey an mn (prepDetail now d) :: seen,
            key ∈ storeSeen (recordImported s an mn (prepDetail now d)) := by
          intro key hk
          rcases List.mem_cons.mp hk with hk | hk
          · subst hk
            exact (storeSeen_recordImported s an mn _).2 han
          · exact (storeSeen_recordImported s an mn _).1 key (hsub key hk)
        obtain ⟨h1, h2, h3, h4, h5⟩ := ih _ _ _ han' hsub'
        refine ⟨?_, ?_, h3, ?_, ?_⟩
        · intro k hk
          refine h1 k ?_
          rw [recordImported_lookup_isSome]
          exact hk
        · intro b hb
          exact h2 b ((storeSeen_recordImported s an mn _).1 b hb)
        · intro key hk
          exact h4 key (List.mem_cons_of_mem _ hk)
        · intro d' hd'
          rcases List.mem_cons.mp hd' with hd' | hd'
          · subst hd'
            exact h4 _ (List.mem_cons_self _ _)
          · exact h5 d' hd'

theorem mergeModels_spec (now : Int) (an : String) :
    ∀ (models : List (String × ModelSnapshot)) (s : RequestStatistics)
      (seen : List DedupKey) (res : MergeResult),
      (alookup s.apis an).isSome →
      (∀ key ∈ seen, key ∈ storeSeen s) →
      (∀ k, (alookup s.apis k).isSome →
          (alookup (mergeModels now an s seen res models).1.apis k).isSome) ∧
        (∀ b ∈ storeSeen s, b ∈ storeSeen (mergeModels now an s seen res models).1) ∧
        (∀ key ∈ (mergeModels now an s seen res models).2.1,
          key ∈ storeSeen (mergeModels now an s seen res models).1) ∧
        (∀ key ∈ seen, key ∈ (mergeModels now an s seen res models).2.1) ∧
        (∀ m ∈ models, ∀ d ∈ m.2.Details,
          dedupKey an (modelKey m.1) (prepDetail now d)
            ∈ (mergeModels now an s seen res models).2.1) := by
  intro models
  induction models with
  | nil =>
      intro s seen res han hsub
      exact ⟨fun k hk => hk, fun b hb => hb, hsub, fun key hk => hk, by simp⟩
  | cons m rest ih =>
      intro s seen res han hsub
      obtain ⟨mn, msnap⟩ := m
      have heq : mergeModels now an s seen res ((mn, msnap) :: rest)
          = mergeModels now an
              (mergeDetails now an (modelKey mn) s seen res msnap.Details).1
              (mergeDetails now an (modelKey mn) s seen res msnap.Details).2.1
              (mergeDetails now an (modelKey mn) s seen res msnap.Details).2.2 rest := by
        simp [mergeModels]
      rw [heq]
      obtain ⟨d1, d2, d3, d4, d5⟩ :=
        mergeDetails_spec now an (modelKey mn) msnap.Details s seen res han hsub
      obtain ⟨h1, h2, h3, h4, h5⟩ := ih _ _ _ (d1 an han) d3
      refine ⟨fun k hk => h1 k (d1 k hk), fun b hb => h2 b (d2 b hb), h3,
        fun key hk => h4 key (d4 key hk), ?_⟩
      intro m hm d hd
      rcases List.mem_cons.mp hm with hm | hm
      · subst hm
        exact h4 _ (d5 d hd)
      · exact h5 m hm d hd

theorem mergeApis_spec (now : Int) :
    ∀ (apis : List (String × APISnapshot)) (s : RequestStatistics)
      (seen : List DedupKey) (res : MergeResult),
      (∀ key ∈ seen, key ∈ storeSeen s) →
      (∀ k, (alookup s.apis k).isSome →
          (alookup (mergeApis now s seen res apis).1.apis k).isSome) ∧
        (∀ b ∈ storeSeen s, b ∈ storeSeen (mergeApis now s seen res apis).1) ∧
        (∀ key ∈ (mergeApis now s seen res apis).2.1,
          key ∈ storeSeen (mergeApis now s seen res apis).1) ∧
        (∀ key ∈ seen, key ∈ (mergeApis now s seen res apis).2.1) ∧
        (∀ p ∈ apis, trimSpace p.1 ≠ "" →
          (alookup (mergeApis now s seen res apis).1.apis (trimSpace p.1)).isSome ∧
          ∀ m ∈ p.2.Models, ∀ d ∈ m.2.Details,
            dedupKey (trimSpace p.1) (modelKey m.1) (prepDetail now d)
              ∈ (mergeApis now s seen res apis).2.1) := by
  intro apis
  induction apis with
  | nil =>
      intro s seen res hsub
      exact ⟨fun k hk => hk, fun b hb => hb, hsub, fun key hk => hk, by simp⟩
  | cons p rest ih =>
      intro s seen res hsub
      obtain ⟨an, asnap⟩ := p
      by_cases hblank : trimSpace an = ""
      · have heq : mergeApis now s seen res ((an, asnap) :: rest)
            = mergeApis now s seen res rest := by
          simp [mergeApis, hblank]
        rw [heq]
        obtain ⟨h1, h2, h3, h4, h5⟩ := ih s seen res hsub
        refine ⟨h1, h2, h3, h4, ?_⟩
        intro q hq hne
        rcases List.mem_cons.mp hq with hq | hq
        · subst hq
          exact absurd hblank hne
        · exact h5 q hq hne
      · have heq : mergeApis now s seen res ((an, asnap) :: rest)
            = mergeApis now
                (mergeModels now (trimSpace an) (ensureApi s (trimSpace an)) seen res
                  asnap.Models).1
                (mergeModels now (trimSpace an) (ensureApi s (trimSpace an)) seen res
                  asnap.Models).2.1
                (mergeModels now (trimSpace an) (ensureApi s (trimSpace an)) seen res
                  asnap.Models).2.2 rest := by
          simp [mergeApis, hblank]
        rw [heq]
        have hsub1 : ∀ key ∈ seen, key ∈ storeSeen (ensureApi s (trimSpace an)) :=
          fun key hk => ensureApi_storeSeen s _ key (hsub key hk)
        have han1 : (alookup (ensureApi s (trimSpace an)).apis (trimSpace an)).isSome :=
          ensureApi_lookup_self s _
        obtain ⟨m1, m2, m3, m4, m5⟩ :=
          mergeModels_spec now (trimSpace an) asnap.Models (ensureApi s (trimSpace an))
            seen res han1 hsub1
        obtain ⟨h1, h2, h3, h4, h5⟩ := ih _ _ _ m3
        refine ⟨?_, ?_, h3, fun key hk => h4 key (m4 key hk), ?_⟩
        · intro k hk
          exact h1 k (m1 k (ensureApi_lookup_preserve s _ k hk))
        · intro b hb
          exact h2 b (m2 b (ensureApi_storeSeen s _ b hb))
        · intro q hq hne
          rcases List.mem_cons.mp hq with hq | hq
          · subst hq
            refine ⟨h1 _ (m1 _ han1), ?_⟩
            intro m hm d hd
            exact h4 _ (m5 m hm d hd)
          · exact h5 q hq hne

theorem prepDetail_ts_ne (now now' : Int) (d : RequestDetail) (h : d.Timestamp ≠ 0) :
    prepDetail now d = prepDetail now' d := by
  simp [prepDetail, h]

theorem mergeDetails_skip (now : Int) (an mn : String) :
    ∀ (ds : List RequestDetail) (s : RequestStatistics) (seen : List DedupKey)
      (res : MergeResult),
      (∀ d ∈ ds, dedupKey an mn (prepDetail now d) ∈ seen) →
      mergeDetails now an mn s seen res ds
        = (s, seen, { res with Skipped := res.Skipped + (ds.length : Int) }) := by
  intro ds
  induction ds with
  | nil =>
      intro s seen res _
      simp [mergeDetails]
  | cons d rest ih =>
      intro s seen res hmem
      have hd := hmem d (List.mem_cons_self _ _)
      have heq : mergeDetails now an mn s seen res (d :: rest)
          = mergeDetails now an mn s seen { res with Skipped := res.Skipped + 1 } rest := by
        simp [mergeDetails, hd]
      rw [heq, ih _ _ _ fun d' hd' => hmem d' (List.mem_cons_of_mem _ hd')]
      have harith : res.Skipped + 1 + (rest.length : Int)
          = res.Skipped + ((rest.length : Int) + 1) := by ring
      simp [List.length_cons, harith]

theorem mergeModels_skip (now : Int) (an : String) :
    ∀ (models : List (String × ModelSnapshot)) (s : RequestStatistics)
      (seen : List DedupKey) (res : MergeResult),
      (∀ m ∈ models, ∀ d ∈ m.2.Details,
        dedupKey an (modelKey m.1) (prepDetail now d) ∈ seen) →
      mergeModels now an s seen res models
        = (s, seen, { res with Skipped := res.Skipped + modelsDetailCount models }) := by
  intro models
  induction models with
  | nil =>
      intro s seen res _
      simp [mergeModels, modelsDetailCount]
  | cons m rest ih =>
      intro s seen res hmem
      obtain ⟨mn, msnap⟩ := m
      have h1 := mergeDetails_skip now an (modelKey mn) msnap.Details s seen res
        fun d hd => hmem (mn, msnap) (List.mem_cons_self _ _) d hd
      have heq : mergeModels now an s seen res ((mn, msnap) :: rest)
          = mergeModels now an s seen
              { res with Skipped := res.Skipped + (msnap.Details.length : Int) } rest := by
        simp [mergeModels, h1]
      rw [heq, ih _ _ _ fun m hm d hd => hmem m (List.mem_cons_of_mem _ hm) d hd]
      simp [modelsDetailCount]
      ring

theorem mergeApis_skip (now : Int) :
    ∀ (apis : List (String × APISnapshot)) (s : RequestStatistics)
      (seen : List DedupKey) (res : MergeResult),
      (∀ p ∈ apis, trimSpace p.1 ≠ "") →
      (∀ p ∈ apis, (alookup s.apis (trimSpace p.1)).isSome) →
      (∀ p ∈ apis, ∀ m ∈ p.2.Models, ∀ d ∈ m.2.Details,
        dedupKey (trimSpace p.1) (modelKey m.1) (prepDetail now d) ∈ seen) →
      mergeApis now s seen res apis
        = (s, seen, { res with Skipped := res.Skipped + apisDetailCount apis }) := by
  intro apis
  induction apis with
  | nil =>
      intro s seen res _ _ _
      simp [mergeApis, apisDetailCount]
  | cons p rest ih =>
      intro s seen res hne hpresent hkeys
      obtain ⟨an, asnap⟩ := p
      have hb : trimSpace an ≠ "" := hne (an, asnap) (List.mem_cons_self _ _)
      have he : ensureApi s (trimSpace an) = s :=
        ensureApi_eq s _ (hpresent (an, asnap) (List.mem_cons_self _ _))
      have h1 := mergeModels_skip now (trimSpace an) asnap.Models s seen res
        fun m hm d hd => hkeys (an, asnap) (List.mem_cons_self _ _) m hm d hd
      have heq : mergeApis now s seen res ((an, asnap) :: rest)
          = mergeApis now s seen
              { res with Skipped := res.Skipped + modelsDetailCount asnap.Models } rest := by
        simp [mergeApis, hb, he, h1]
      rw [heq, ih _ _ _ (fun q hq => hne q (List.mem_cons_of_mem _ hq))
        (fun q hq => hpresent q (List.mem_cons_of_mem _ hq))
        (fun q hq => hkeys q (List.mem_cons_of_mem _ hq))]
      simp [apisDetailCount]
      ring

/-- C7 (amended): merging an externally supplied snapshot — all of whose
detail timestamps are non-zero and all of whose API identities are
non-blank after trimming — into any store twice via `MergeSnapshot` adds
every detail exactly once: the second merge returns Added 0 and Skipped
equal to the snapshot's detail count, because every dedup key already
matches a stored row, and it leaves the store (all counters, rollups and
buckets) unchanged. -/
theorem c7_second_merge_all_skipped (s0 : RequestStatistics) (snap : StatisticsSnapshot)
    (now1 now2 : Int)
    (hts : ∀ p ∈ snap.APIs, ∀ m ∈ p.2.Models, ∀ d ∈ m.2.Details, d.Timestamp ≠ 0)
    (hapi : ∀ p ∈ snap.APIs, trimSpace p.1 ≠ "") :
    (MergeSnapshot (MergeSnapshot s0 snap now1).1 snap now2).2.Added = 0 ∧
    (MergeSnapshot (MergeSnapshot s0 snap now1).1 snap now2).2.Skipped
      = snapshotDetailCount snap ∧
    (MergeSnapshot (MergeSnapshot s0 snap now1).1 snap now2).1
      = (MergeSnapshot s0 snap now1).1 := by
  obtain ⟨h1, h2, h3, h4, h5⟩ :=
    mergeApis_spec now1 snap.APIs s0 (storeSeen s0) {} fun key hk => hk
  have hpresent : ∀ p ∈ snap.APIs,
      (alookup (mergeApis now1 s0 (storeSeen s0) {} snap.APIs).1.apis
        (trimSpace p.1)).isSome :=
    fun p hp => (h5 p hp (hapi p hp)).1
  have hkeys : ∀ p ∈ snap.APIs, ∀ m ∈ p.2.Models, ∀ d ∈ m.2.Details,
      dedupKey (trimSpace p.1) (modelKey m.1) (prepDetail now2 d)
        ∈ storeSeen (mergeApis now1 s0 (storeSeen s0) {} snap.APIs).1 := by
    intro p hp m hm d hd
    have hk2 := h3 _ ((h5 p hp (hapi p hp)).2 m hm d hd)
    rwa [prepDetail_ts_ne now1 now2 d (hts p hp m hm d hd)] at hk2
  have hskip := mergeApis_skip now2 snap.APIs
      (mergeApis now1 s0 (storeSeen s0) {} snap.APIs).1
      (storeSeen (mergeApis now1 s0 (storeSeen s0) {} snap.APIs).1) {}
      hapi hpresent hkeys
  have hrun2 : MergeSnapshot (MergeSnapshot s0 snap now1).1 snap now2
      = ((mergeApis now2 (mergeApis now1 s0 (storeSeen s0) {} snap.APIs).1
            (storeSeen (mergeApis now1 s0 (storeSeen s0) {} snap.APIs).1) {} snap.APIs).1,
         (mergeApis now2 (mergeApis now1 s0 (storeSeen s0) {} snap.APIs).1
            (storeSeen (mergeApis now1 s0 (storeSeen s0) {} snap.APIs).1) {}
            snap.APIs).2.2) := rfl
  rw [hrun2, hskip]
  refine ⟨rfl, ?_, rfl⟩
  show (0 : Int) + apisDetailCount snap.APIs = snapshotDetailCount snap
  simp [snapshotDetailCount]

/-- C7 counterexample: a snapshot whose only API identity is
whitespace-only carries one detail row (non-zero timestamp), yet both
merges silently drop it: the second merge reports Skipped 0, not the
snapshot's detail count 1, because the API loop skips identities that are
empty after trimming. -/
theorem c7_counterexample :
    (MergeSnapshot (MergeSnapshot {} c7BlankSnapshot 1).1 c7BlankSnapshot 2).2
      = { Added := 0, Skipped := 0 } ∧
    snapshotDetailCount c7BlankSnapshot = 1 ∧
    (∀ p ∈ c7BlankSnapshot.APIs, ∀ m ∈ p.2.Models, ∀ d ∈ m.2.Details,
      d.Timestamp ≠ 0) := by
  exact ⟨by decide, by decide, by decide⟩

theorem c7_witness :
    (MergeSnapshot (MergeSnapshot {} c7Snap 1).1 c7Snap 2).2.Added = 0 ∧
    (MergeSnapshot (MergeSnapshot {} c7Snap 1).1 c7Snap 2).2.Skipped
      = snapshotDetailCount c7Snap ∧
    (MergeSnapshot (MergeSnapshot {} c7Snap 1).1 c7Snap 2).1
      = (MergeSnapshot {} c7Snap 1).1 :=
  c7_second_merge_all_skipped {} c7Snap 1 2 (by decide) (by decide)
